import Mathlib

/-!
# Verification of the `maintest` / `execover` coverage test harness

A shallow embedding of the Go package `maintest` (file `maintest.go`): an
instrumented executable handle built by `Build`, invoked through `Exe.Command`,
and finalized by `Exe.Finish`, which merges coverage data and removes the
private temporary directory.

External effects (filesystem, subprocesses, environment) are modelled by
explicit oracle structures (`Sys`, `BuildWorld`, `FinishWorld`) and an
`Effect` trace recording the filesystem and subprocess actions performed.
-/

set_option maxHeartbeats 1000000

namespace Maintest

/-! ## String primitives

Go's `strings.Split(s, "=")` and `strings.Join(vs, "=")` specialised to the
one-character separator `"="` used by `findArg`, modelled on `List Char`. -/

/-- Embeds Go `strings.Split(s, "=")`: splits `s` around each `'='`. -/
def splitEq : List Char → List (List Char)
  | [] => [[]]
  | c :: cs =>
    if c = '=' then [] :: splitEq cs
    else
      match splitEq cs with
      | [] => [[c]]
      | p :: ps => (c :: p) :: ps

/-- Embeds Go `strings.Join(vs, "=")`: concatenates with `'='` between parts. -/
def joinEq : List (List Char) → List Char
  | [] => []
  | [p] => p
  | p :: ps => p ++ '=' :: joinEq ps

/-- `splitEq` always yields at least one part (Go `strings.Split` never
returns an empty slice for a non-empty separator). -/
theorem splitEq_ne_nil (cs : List Char) : splitEq cs ≠ [] := by
  induction cs with
  | nil => simp [splitEq]
  | cons c cs ih =>
    simp only [splitEq]
    split
    · simp
    · match h : splitEq cs with
      | [] => simp
      | p :: ps => simp

/-- Joining the parts of a split recovers the original string. -/
theorem joinEq_splitEq (cs : List Char) : joinEq (splitEq cs) = cs := by
  induction cs with
  | nil => simp [splitEq, joinEq]
  | cons c cs ih =>
    simp only [splitEq]
    split
    · rename_i hc
      match h : splitEq cs with
      | [] => exact absurd h (splitEq_ne_nil cs)
      | p :: ps =>
        rw [h] at ih
        simp [joinEq, hc, ih]
    · rename_i hc
      match h : splitEq cs with
      | [] => exact absurd h (splitEq_ne_nil cs)
      | p :: ps =>
        rw [h] at ih
        cases ps with
        | nil => simp_all [joinEq]
        | cons q qs => simp_all [joinEq]

/-! ## Flag scanning (`findArg`, `findGoCoverDir`) -/

/-- Embeds `findArg` (maintest.go lines 220–231): scans the argument list for
the first argument starting with `"-" + key`; returns the text after the
first `'='` of that argument (rejoining later parts with `'='`), the empty
string if that argument has no `'='`, and the empty string if no argument
matches. -/
def findArg (key : String) (osArgs : List String) : String :=
  match osArgs with
  | [] => ""
  | arg :: rest =>
    if ('-' :: key.data).isPrefixOf arg.data then
      let vs := splitEq arg.data
      if vs.length ≤ 1 then "" else String.mk (joinEq (vs.drop 1))
    else
      findArg key rest

/-- The characters strictly after the first `'='` of a string, `none` when
the string has no `'='`. Spec-side companion of `findArg`'s value
extraction, used to state the claim about it. -/
def afterFirstEq : List Char → Option (List Char)
  | [] => none
  | c :: cs => if c = '=' then some cs else afterFirstEq cs

/-- Spec-side restatement of the claimed `findArg` behaviour: find the first
argument with the text `"-" + key` as a prefix and return the text after its
first `'='` (empty when it has no `'='` or when nothing matches). -/
def findArgSpec (key : String) (osArgs : List String) : String :=
  match osArgs.find? (fun arg => ('-' :: key.data).isPrefixOf arg.data) with
  | none => ""
  | some arg =>
    match afterFirstEq arg.data with
    | none => ""
    | some v => String.mk v

/-- The split-and-rejoin extraction in `findArg` computes exactly the text
after the first `'='`. -/
theorem splitEq_extract_eq_afterFirstEq (cs : List Char) :
    (if (splitEq cs).length ≤ 1 then "" else String.mk (joinEq ((splitEq cs).drop 1)))
      = (match afterFirstEq cs with
         | none => ""
         | some v => String.mk v) := by
  induction cs with
  | nil => simp [splitEq, afterFirstEq]
  | cons c cs ih =>
    simp only [splitEq, afterFirstEq]
    split
    · have hlen : ¬ ([] :: splitEq cs).length ≤ 1 := by
        have := splitEq_ne_nil cs
        cases h : splitEq cs with
        | nil => exact absurd h this
        | cons p ps => simp [h]
      simp only [hlen, if_false, List.drop_succ_cons, List.drop_zero, joinEq_splitEq]
    · match h : splitEq cs with
      | [] => exact absurd h (splitEq_ne_nil cs)
      | p :: ps =>
        rw [h] at ih
        simp only [List.length_cons, List.drop_succ_cons, List.drop_zero] at ih ⊢
        exact ih

/-- The ambient process state read by the package: `runtime.GOOS`,
`exec.LookPath` (`none` when the binary is not on the search path),
`os.Args`, `os.Getenv` (empty string when unset), and `os.Environ()`. -/
structure Sys where
  goos : String
  lookPath : String → Option String
  osArgs : List String
  env : String → String
  environ : List String

/-- Embeds `findGoCoverDir` (maintest.go lines 212–218): the
`-test.gocoverdir` flag value, falling back to the `GOCOVERDIR` environment
variable when the flag value is empty. -/
def findGoCoverDir (sys : Sys) : String :=
  let d := findArg "test.gocoverdir" sys.osArgs
  if d = "" then sys.env "GOCOVERDIR" else d

/-- Claim C10: for every key and argument list, `findArg` returns the text
after the first `'='` (later `'='` characters preserved) of the first
argument having `"-" + key` as a prefix, and the empty string when that
argument has no `'='` or when no argument matches; an argument merely
extending the key (`-test.coverprofileX=v`) matches, and a double-dash form
(`--test.coverprofile=v`) never matches. -/
theorem find_arg_first_match_spec :
    (∀ (key : String) (osArgs : List String), findArg key osArgs = findArgSpec key osArgs)
    ∧ findArg "test.coverprofile" ["-test.coverprofileX=v"] = "v"
    ∧ findArg "test.coverprofile" ["--test.coverprofile=v"] = ""
    ∧ findArg "test.coverprofile" ["-test.coverprofile=a=b"] = "a=b"
    ∧ findArg "test.coverprofile" ["-test.coverprofile"] = "" := by
  refine ⟨fun key osArgs => ?_, by decide, by decide, by decide, by decide⟩
  induction osArgs with
  | nil => simp [findArg, findArgSpec]
  | cons arg rest ih =>
    by_cases h : ('-' :: key.data).isPrefixOf arg.data = true
    · have hf : findArgSpec key (arg :: rest)
          = (match afterFirstEq arg.data with
             | none => ""
             | some v => String.mk v) := by
        unfold findArgSpec
        rw [List.find?_cons_of_pos (p := fun s => ('-' :: key.data).isPrefixOf s.data) rest h]
      rw [hf]
      simp only [findArg, h, if_true]
      exact splitEq_extract_eq_afterFirstEq arg.data
    · have hf : findArgSpec key (arg :: rest) = findArgSpec key rest := by
        unfold findArgSpec
        rw [List.find?_cons_of_neg (p := fun s => ('-' :: key.data).isPrefixOf s.data) rest h]
      rw [hf]
      simp only [findArg, h, if_false]
      exact ih

/-- Claim C6: the raw coverage directory used by `Finish` comes from the
`-test.gocoverdir` flag value when it is non-empty; the `GOCOVERDIR`
environment variable is consulted only when the flag value is empty, so a
non-empty flag value makes the environment irrelevant. -/
theorem gocoverdir_flag_over_env (sys : Sys) :
    (findArg "test.gocoverdir" sys.osArgs ≠ "" →
      findGoCoverDir sys = findArg "test.gocoverdir" sys.osArgs)
    ∧ (findArg "test.gocoverdir" sys.osArgs = "" →
      findGoCoverDir sys = sys.env "GOCOVERDIR")
    ∧ (∀ env2 : String → String, findArg "test.gocoverdir" sys.osArgs ≠ "" →
      findGoCoverDir { sys with env := env2 } = findGoCoverDir sys) := by
  refine ⟨fun h => ?_, fun h => ?_, fun env2 h => ?_⟩ <;> simp [findGoCoverDir, h]

/-- Concrete instance of `gocoverdir_flag_over_env`: a non-empty
`-test.gocoverdir=/covdir` flag wins over `GOCOVERDIR=/envdir`. -/
theorem gocoverdir_flag_over_env_witness :
    findArg "test.gocoverdir" ["-test.gocoverdir=/covdir"] ≠ ""
    ∧ findGoCoverDir
        { goos := "linux", lookPath := fun _ => none,
          osArgs := ["-test.gocoverdir=/covdir"],
          env := fun _ => "/envdir", environ := [] } = "/covdir" := by
  refine ⟨by decide, ?_⟩
  rw [(gocoverdir_flag_over_env
    { goos := "linux", lookPath := fun _ => none,
      osArgs := ["-test.gocoverdir=/covdir"],
      env := fun _ => "/envdir", environ := [] }).1 (by decide)]
  decide

/-! ## The handle (`Exe`) and its options -/

/-- Embeds the `Exe` struct (maintest.go lines 30–40): the instrumented
executable handle. -/
structure Exe where
  Path : String
  CoverageDir : String
  binDir : String
  buildPkg : String
  extraArgs : List String
  overrideCovDir : String
  delveOpts : List String
deriving DecidableEq

/-- The Go zero value of `Exe` (`var exe Exe` in `Build`). -/
def exeZero : Exe :=
  { Path := "", CoverageDir := "", binDir := "", buildPkg := "",
    extraArgs := [], overrideCovDir := "", delveOpts := [] }

/-- Embeds the `Option` function type of the package (`func(e *Exe)`),
modelled as a state transformer. (`Option` itself is taken in Lean.) -/
abbrev ExeOption : Type := Exe → Exe

/-- Embeds `Debug` (maintest.go lines 66–71): appends the
optimization-disabling gcflags argument to the extra build args and the
given args to the delve options. -/
def Debug (dlvArgs : List String) : ExeOption := fun e =>
  { e with extraArgs := e.extraArgs ++ ["-gcflags=all=-N -l"],
           delveOpts := e.delveOpts ++ dlvArgs }

/-- Embeds `WriteCoverage` (maintest.go lines 74–78): overrides the merged
coverage destination. -/
def WriteCoverage (path : String) : ExeOption := fun e =>
  { e with overrideCovDir := path }

/-- Embeds `Package` (maintest.go lines 82–86): sets the package to build. -/
def Package (pkg : String) : ExeOption := fun e =>
  { e with buildPkg := pkg }

/-- Models `filepath.Join(a, b)` for the clean relative names used by the
package: concatenation with a single separator. -/
def joinPath (a b : String) : String := a ++ "/" ++ b

/-! ## Process invocations -/

/-- Models the parts of `exec.Cmd` the package sets: the program resolved,
its argument vector (without the program name), and the environment. -/
structure Cmd where
  prog : String
  args : List String
  env : List String
deriving DecidableEq

/-- Embeds `Exe.Command` (maintest.go lines 138–157): wraps the invocation
in `dlv exec --log-dest /dev/null [delveOpts...] [Path] -- [args...]` when
delve options are present, otherwise invokes the executable directly; sets
`GOCOVERDIR` in the child environment either way. -/
def Exe.Command (sys : Sys) (b : Exe) (args : List String) : Cmd :=
  let cmd : Cmd :=
    if b.delveOpts.length > 0 then
      let dlvArgs := ["exec"] ++ ["--log-dest", "/dev/null"]
        ++ b.delveOpts ++ [b.Path, "--"] ++ args
      let dlvExe := if sys.goos = "windows" then "dlv" ++ ".exe" else "dlv"
      { prog := dlvExe, args := dlvArgs, env := [] }
    else
      { prog := b.Path, args := args, env := [] }
  { cmd with env := sys.environ ++ ["GOCOVERDIR=" ++ b.CoverageDir] }

/-- A handle configured for debug-attach, as `Build("add", Debug("--headless"))`
would produce it (concrete fixture). -/
def bDlv : Exe :=
  { exeZero with Path := "/tmp/gotestexe/add",
                 CoverageDir := "/tmp/gotestexe/.coverage",
                 binDir := "/tmp/gotestexe",
                 delveOpts := ["--headless"] }

/-- A concrete non-Windows ambient state (fixture). -/
def sysLinux : Sys :=
  { goos := "linux", lookPath := fun _ => some "/usr/bin/go",
    osArgs := [], env := fun _ => "", environ := [] }

/-- Claim C3 as stated is false: with delve options `["--headless"]` the
argument vector built by `Command` is not
`exec` + configured options + path + `--` + args, because `Command` inserts
`--log-dest /dev/null` between `exec` and the configured options. -/
theorem command_claimed_shape_counterexample :
    (Exe.Command sysLinux bDlv []).args
      ≠ ["exec"] ++ bDlv.delveOpts ++ [bDlv.Path, "--"] ++ ([] : List String) := by
  decide

/-- Claim C3 (amended): when delve options are non-empty, `Command` runs the
debugger binary with the `exec` subcommand, then the fixed logging
suppression options `--log-dest /dev/null`, then the configured options, the
built executable's path, a `--` separator, and exactly the given arguments
unchanged and in order; when delve options are empty, `Command` invokes the
built executable directly with exactly the given arguments. -/
theorem command_argv_characterization (sys : Sys) (b : Exe) (args : List String) :
    (b.delveOpts ≠ [] →
      Exe.Command sys b args =
        { prog := if sys.goos = "windows" then "dlv.exe" else "dlv",
          args := ["exec", "--log-dest", "/dev/null"] ++ b.delveOpts
                    ++ [b.Path, "--"] ++ args,
          env := sys.environ ++ ["GOCOVERDIR=" ++ b.CoverageDir] })
    ∧ (b.delveOpts = [] →
      Exe.Command sys b args =
        { prog := b.Path, args := args,
          env := sys.environ ++ ["GOCOVERDIR=" ++ b.CoverageDir] }) := by
  constructor
  · intro h
    have hlen : b.delveOpts.length > 0 := List.length_pos.mpr h
    by_cases hg : sys.goos = "windows" <;>
      simp [Exe.Command, hlen, hg]
  · intro h
    simp [Exe.Command, h]

/-- Concrete instance of `command_argv_characterization`: the fixture handle
with `--headless` and arguments `1 3`. -/
theorem command_argv_characterization_witness :
    Exe.Command sysLinux bDlv ["1", "3"] =
      { prog := "dlv",
        args := ["exec", "--log-dest", "/dev/null", "--headless",
                 "/tmp/gotestexe/add", "--", "1", "3"],
        env := ["GOCOVERDIR=/tmp/gotestexe/.coverage"] } := by
  rw [(command_argv_characterization sysLinux bDlv ["1", "3"]).1 (by decide)]
  decide

/-- Claim C4: in both the direct and the debugger-wrapped case, the process
description built by `Command` carries `GOCOVERDIR=<private coverage dir>`
in its environment. -/
theorem command_env_gocoverdir (sys : Sys) (b : Exe) (args : List String) :
    ("GOCOVERDIR=" ++ b.CoverageDir) ∈ (Exe.Command sys b args).env := by
  unfold Exe.Command
  by_cases h : b.delveOpts.length > 0 <;> simp [h]

/-! ## Building (`goTool`, `Build`) -/

/-- Embeds `goTool` (maintest.go lines 272–282): looks up `go` (with `.exe`
suffix when `runtime.GOOS == "windows"`) on the search path. -/
def goTool (sys : Sys) : Except String String :=
  let exeSuffix := if sys.goos = "windows" then ".exe" else ""
  match sys.lookPath ("go" ++ exeSuffix) with
  | some goBin => Except.ok goBin
  | none => Except.error "cannot find go tool: executable file not found"

/-- A directory entry as returned by `os.ReadDir`: a name and whether the
entry is a directory. -/
structure DirEntry where
  name : String
  isDir : Bool
deriving DecidableEq

/-- The filesystem and subprocess actions the package performs, recorded as
a trace. -/
inductive Effect where
  | runBuild (argv : List String)
  | runMerge (fromDir dst : String)
  | mkdirAll (dir : String)
  | copyFile (src dst : String)
  | removeAll (dir : String)
deriving DecidableEq

/-- The errors `Build` can return, one constructor per `return nil, err`
site. `message` gives the error text the Go code formats. -/
inductive BuildErr where
  | toolNotFound (msg : String)
  | fsError (msg : String)
  | buildFailed (out : String)
deriving DecidableEq

/-- The Go error message carried by a `BuildErr` (the `buildFailed` case is
`fmt.Errorf("go build: %s", out)`). -/
def BuildErr.message : BuildErr → String
  | .toolNotFound msg => msg
  | .fsError msg => msg
  | .buildFailed out => "go build: " ++ out

/-- Oracle for the external effects of `Build`: the result of
`os.MkdirTemp` (the fresh directory name or an error), of
`os.MkdirAll` on the coverage subdirectory (`none` = success), and of
`(*exec.Cmd).CombinedOutput` on the build invocation (captured combined
output and whether the process exited zero). -/
structure BuildWorld where
  mkdirTemp : Except String String
  mkdirAll : Option String
  buildRun : List String → String × Bool

/-- Embeds the argument construction of `Build` (maintest.go lines
117–122): `build`, the extra build args, `-cover -o <Path>`, and the
package exactly when one is set. -/
def buildArgs (e : Exe) : List String :=
  ["build"] ++ e.extraArgs ++ ["-cover", "-o", e.Path]
    ++ (if e.buildPkg ≠ "" then [e.buildPkg] else [])

/-- Embeds `Build` (maintest.go lines 90–134): resolves the go tool, applies
the options to the zero handle, creates the temporary root and the
`.coverage` subdirectory, appends `.exe` to the executable name when
`runtime.GOOS == "window"` (sic), and runs `go build`; returns the handle on
success and the error (with captured output for a failed build) otherwise.
The dead re-check of the stale `err` after `exec.Command` (lines 125–127)
is omitted: `err` is always `nil` there. -/
def Build (sys : Sys) (w : BuildWorld) (exeName : String) (opts : List ExeOption) :
    Except BuildErr Exe × List Effect :=
  match goTool sys with
  | .error e => (Except.error (BuildErr.toolNotFound e), [])
  | .ok gotool =>
    let exe1 := opts.foldl (fun e o => o e) exeZero
    match w.mkdirTemp with
    | .error e => (Except.error (BuildErr.fsError e), [])
    | .ok binDir =>
      let exe2 := { exe1 with binDir := binDir,
                              CoverageDir := joinPath binDir ".coverage" }
      match w.mkdirAll with
      | some e => (Except.error (BuildErr.fsError e), [])
      | none =>
        let exeName2 := if sys.goos = "window" then exeName ++ ".exe" else exeName
        let exe3 := { exe2 with Path := joinPath exe2.binDir exeName2 }
        let argv := gotool :: buildArgs exe3
        let run := w.buildRun argv
        if run.2 then (Except.ok exe3, [Effect.runBuild argv])
        else (Except.error (BuildErr.buildFailed run.1), [Effect.runBuild argv])

/-- The handle `Build` constructs once `os.MkdirTemp` has returned `d`
(the intermediate value of `exe` just before `go build` runs). -/
def buildTarget (sys : Sys) (d exeName : String) (opts : List ExeOption) : Exe :=
  let exe1 := opts.foldl (fun e o => o e) exeZero
  { exe1 with binDir := d,
              CoverageDir := joinPath d ".coverage",
              Path := joinPath d (if sys.goos = "window" then exeName ++ ".exe" else exeName) }

/-- Helper: full characterization of `Build` once the go tool is found and
both directory creations succeed. -/
theorem build_unfold (sys : Sys) (w : BuildWorld) (exeName : String)
    (opts : List ExeOption) (g d : String)
    (hg : goTool sys = Except.ok g) (hT : w.mkdirTemp = Except.ok d)
    (hA : w.mkdirAll = none) :
    Build sys w exeName opts =
      (let exe3 := buildTarget sys d exeName opts
       let argv := g :: buildArgs exe3
       if (w.buildRun argv).2 then (Except.ok exe3, [Effect.runBuild argv])
       else (Except.error (BuildErr.buildFailed (w.buildRun argv).1),
             [Effect.runBuild argv])) := by
  unfold Build buildTarget
  rw [hg, hT, hA]

/-- A build world where every external call succeeds and the temporary root
is `/tmp/gotestexe` (fixture). -/
def wBuildOk : BuildWorld :=
  { mkdirTemp := Except.ok "/tmp/gotestexe", mkdirAll := none,
    buildRun := fun _ => ("", true) }

/-- A build world where `go build` exits non-zero with output
`compile error` (fixture). -/
def wBuildFail : BuildWorld :=
  { mkdirTemp := Except.ok "/tmp/gotestexe", mkdirAll := none,
    buildRun := fun _ => ("compile error", false) }

/-- An ambient state without a go tool on the search path (fixture). -/
def sysNoGo : Sys :=
  { goos := "linux", lookPath := fun _ => none,
    osArgs := [], env := fun _ => "", environ := [] }

/-- Claim C7: the build invocation is the build subcommand, then all
accumulated extra build flags, then `-cover` and `-o <path in the temporary
directory>`, then the alternate package argument exactly when one is set;
`Debug` is what appends the optimization-disabling gcflags argument and
`Package` is what sets the alternate package. -/
theorem build_argv_shape (sys : Sys) (w : BuildWorld) (exeName : String)
    (opts : List ExeOption) (g d : String)
    (hg : goTool sys = Except.ok g) (hT : w.mkdirTemp = Except.ok d)
    (hA : w.mkdirAll = none) :
    ((Build sys w exeName opts).2 =
      (let exeF := opts.foldl (fun e o => o e) exeZero
       let path := joinPath d (if sys.goos = "window" then exeName ++ ".exe" else exeName)
       [Effect.runBuild (g :: ["build"] ++ exeF.extraArgs ++ ["-cover", "-o", path]
          ++ (if exeF.buildPkg ≠ "" then [exeF.buildPkg] else []))]))
    ∧ (∀ (e : Exe) (as : List String),
        (Debug as e).extraArgs = e.extraArgs ++ ["-gcflags=all=-N -l"])
    ∧ (∀ (e : Exe) (p : String), (Package p e).buildPkg = p) := by
  refine ⟨?_, fun e as => rfl, fun e p => rfl⟩
  rw [build_unfold sys w exeName opts g d hg hT hA]
  dsimp only [buildArgs, buildTarget]
  split <;> split <;> split <;> rfl

/-- Concrete instance of `build_argv_shape`: building `add` with
`Debug("--headless")` and `Package("./example")` runs
`go build -gcflags=all=-N -l -cover -o /tmp/gotestexe/add ./example`. -/
theorem build_argv_shape_witness :
    (Build sysLinux wBuildOk "add" [Debug ["--headless"], Package "./example"]).2 =
      [Effect.runBuild ["/usr/bin/go", "build", "-gcflags=all=-N -l",
        "-cover", "-o", "/tmp/gotestexe/add", "./example"]] := by
  rw [(build_argv_shape sysLinux wBuildOk "add" [Debug ["--headless"], Package "./example"]
    "/usr/bin/go" "/tmp/gotestexe" rfl rfl rfl).1]
  rfl

/-- Claim C8: with the temporary directories created, `Build` fails exactly
when the go tool is missing from the search path or the build subprocess
exits non-zero; in the latter case the error's message carries the captured
combined output; otherwise it returns a handle. -/
theorem build_error_cases (sys : Sys) (w : BuildWorld) (exeName : String)
    (opts : List ExeOption) (d : String)
    (hT : w.mkdirTemp = Except.ok d) (hA : w.mkdirAll = none) :
    (∀ msg, goTool sys = Except.error msg →
      (Build sys w exeName opts).1 = Except.error (BuildErr.toolNotFound msg))
    ∧ (∀ g, goTool sys = Except.ok g →
        ((∃ exe, (Build sys w exeName opts).1 = Except.ok exe)
          ↔ (w.buildRun (g :: buildArgs (buildTarget sys d exeName opts))).2 = true))
    ∧ (∀ g out, goTool sys = Except.ok g →
        w.buildRun (g :: buildArgs (buildTarget sys d exeName opts)) = (out, false) →
        (Build sys w exeName opts).1 = Except.error (BuildErr.buildFailed out)
          ∧ ∃ pre, (BuildErr.buildFailed out).message = pre ++ out) := by
  refine ⟨fun msg hmsg => ?_, fun g hg => ?_, fun g out hg hrun => ?_⟩
  · unfold Build
    rw [hmsg]
  · rw [build_unfold sys w exeName opts g d hg hT hA]
    by_cases hc : (w.buildRun (g :: buildArgs (buildTarget sys d exeName opts))).2 = true
    · simp [hc]
    · simp [hc]
  · rw [build_unfold sys w exeName opts g d hg hT hA]
    dsimp only
    rw [hrun]
    exact ⟨rfl, "go build: ", rfl⟩

/-- Concrete instance of `build_error_cases`: a missing go tool yields the
tool-not-found error; a failing build yields an error whose message carries
the captured output. -/
theorem build_error_cases_witness :
    (Build sysNoGo wBuildOk "add" []).1
        = Except.error (BuildErr.toolNotFound "cannot find go tool: executable file not found")
    ∧ (Build sysLinux wBuildFail "add" []).1
        = Except.error (BuildErr.buildFailed "compile error")
    ∧ ∃ pre, (BuildErr.buildFailed "compile error").message = pre ++ "compile error" := by
  have h1 := (build_error_cases sysNoGo wBuildOk "add" [] "/tmp/gotestexe" rfl rfl).1
    "cannot find go tool: executable file not found" rfl
  have h2 := (build_error_cases sysLinux wBuildFail "add" [] "/tmp/gotestexe" rfl rfl).2.2
    "/usr/bin/go" "compile error" rfl rfl
  exact ⟨h1, h2.1, h2.2⟩

/-- A Windows ambient state with both `go.exe` and `dlv.exe` available
(fixture); `runtime.GOOS == "windows"`. -/
def sysWin : Sys :=
  { goos := "windows", lookPath := fun _ => some "/usr/bin/go",
    osArgs := [], env := fun _ => "", environ := [] }

/-- An ambient state with the literal GOOS string `"window"` that `Build`
tests for (fixture). -/
def sysWindow : Sys :=
  { goos := "window", lookPath := fun _ => some "/usr/bin/go",
    osArgs := [], env := fun _ => "", environ := [] }

/-- The handle `Build` produces on `sysWin` for `add` (fixture): note the
suffix-less executable name. -/
def winExe : Exe :=
  { Path := "/tmp/gotestexe/add", CoverageDir := "/tmp/gotestexe/.coverage",
    binDir := "/tmp/gotestexe", buildPkg := "", extraArgs := [],
    overrideCovDir := "", delveOpts := [] }

/-- The handle `Build` produces on `sysWindow` for `add` (fixture). -/
def windowExe : Exe :=
  { winExe with Path := "/tmp/gotestexe/add.exe" }

/-- Claim C9: `Build` appends `.exe` to the executable name only when the
GOOS identifier is the literal `"window"`, so on real Windows
(`"windows"`) the built executable's name gets no suffix, even though
`Command`'s debugger lookup uses `dlv.exe` and `goTool` looks up `go.exe`
when the identifier is `"windows"`. -/
theorem goos_window_suffix_mismatch (sys sysV : Sys) (w : BuildWorld)
    (exeName g d : String) (opts : List ExeOption) (b : Exe) (args : List String)
    (hw : sys.goos = "windows") (hv : sysV.goos = "window")
    (hT : w.mkdirTemp = Except.ok d) (hA : w.mkdirAll = none) :
    (∀ exe, (Build sys w exeName opts).1 = Except.ok exe →
      exe.Path = joinPath d exeName)
    ∧ (∀ exe, (Build sysV w exeName opts).1 = Except.ok exe →
      exe.Path = joinPath d (exeName ++ ".exe"))
    ∧ (b.delveOpts ≠ [] → (Exe.Command sys b args).prog = "dlv.exe")
    ∧ (sys.lookPath "go.exe" = some g → goTool sys = Except.ok g) := by
  have hne : sys.goos ≠ "window" := by rw [hw]; decide
  refine ⟨fun exe hexe => ?_, fun exe hexe => ?_, fun hdl => ?_, fun hlp => ?_⟩
  · cases hgo : goTool sys with
    | error msg =>
      unfold Build at hexe
      rw [hgo] at hexe
      exact absurd hexe (by simp)
    | ok g2 =>
      rw [build_unfold sys w exeName opts g2 d hgo hT hA] at hexe
      by_cases hc : (w.buildRun (g2 :: buildArgs (buildTarget sys d exeName opts))).2 = true
      · simp only [hc, if_true] at hexe
        cases hexe
        simp [buildTarget, hne]
      · simp [hc] at hexe
  · cases hgo : goTool sysV with
    | error msg =>
      unfold Build at hexe
      rw [hgo] at hexe
      exact absurd hexe (by simp)
    | ok g2 =>
      rw [build_unfold sysV w exeName opts g2 d hgo hT hA] at hexe
      by_cases hc : (w.buildRun (g2 :: buildArgs (buildTarget sysV d exeName opts))).2 = true
      · simp only [hc, if_true] at hexe
        cases hexe
        simp [buildTarget, hv]
      · simp [hc] at hexe
  · have hlen : b.delveOpts.length > 0 := List.length_pos.mpr hdl
    simp [Exe.Command, hlen, hw]
  · unfold goTool
    rw [hw]
    simp only [if_true]
    have : ("go" ++ ".exe" : String) = "go.exe" := rfl
    rw [this, hlp]

/-- Concrete instance of `goos_window_suffix_mismatch`: on `"windows"` the
built `add` keeps its bare name while `dlv.exe` and `go.exe` are used; on
`"window"` the built name gets the `.exe` suffix. -/
theorem goos_window_suffix_mismatch_witness :
    ((Build sysWin wBuildOk "add" []).1 = Except.ok winExe
      ∧ winExe.Path = joinPath "/tmp/gotestexe" "add")
    ∧ ((Build sysWindow wBuildOk "add" []).1 = Except.ok windowExe
      ∧ windowExe.Path = joinPath "/tmp/gotestexe" ("add" ++ ".exe"))
    ∧ (Exe.Command sysWin bDlv []).prog = "dlv.exe"
    ∧ goTool sysWin = Except.ok "/usr/bin/go" := by
  have h := goos_window_suffix_mismatch sysWin sysWindow wBuildOk "add" "/usr/bin/go"
    "/tmp/gotestexe" [] bDlv [] rfl rfl rfl rfl
  have hb1 : (Build sysWin wBuildOk "add" []).1 = Except.ok winExe := rfl
  have hb2 : (Build sysWindow wBuildOk "add" []).1 = Except.ok windowExe := rfl
  exact ⟨⟨hb1, h.1 winExe hb1⟩, ⟨hb2, h.2.1 windowExe hb2⟩,
    h.2.2.1 (by decide), h.2.2.2 rfl⟩

/-! ## Finishing (`mergeGoCover`, `copyAll`, `Finish`) -/

/-- The errors `Finish` can return, one constructor per `return err` /
`fmt.Errorf` site: the go tool missing inside `mergeGoCover`, a non-zero
`go tool covdata` exit (`"go tool covdata: %s"`), a failed
`os.MkdirAll(gocoverdir)` (`"mkdir GOCOVERDIR: %w"`), a failed copy
(`"copying cov files to -test.gocoverdir %s: %v"`), and the
configuration error (`"-test.coverprofile and -test.gocoverdir not set in
os.Args, not writing coverage data"`). -/
inductive FinishErr where
  | mergeToolNotFound (msg : String)
  | mergeFailed (out : String)
  | mkdirGoCoverDir (msg : String)
  | copyFailed (dir msg : String)
  | configError
deriving DecidableEq

/-- Oracle for the external effects of `Finish`: the result of
`(*exec.Cmd).CombinedOutput` on the covdata invocation, of
`os.MkdirAll` per directory, of `os.ReadDir` on the coverage directory,
and of `copyFile` per entry name (`none` = success). -/
structure FinishWorld where
  mergeRun : List String → String × Bool
  mkdirAllRes : String → Option String
  readDir : Except String (List DirEntry)
  copyRes : String → Option String

/-- Embeds `mergeGoCover` (maintest.go lines 198–210): resolves the go
tool, then runs `go tool covdata textfmt -i <fromDir> -o <dst>`, returning
the captured output in the error on non-zero exit. -/
def mergeGoCover (sys : Sys) (w : FinishWorld) (fromDir dst : String) :
    Option FinishErr × List Effect :=
  match goTool sys with
  | .error e => (some (FinishErr.mergeToolNotFound e), [])
  | .ok gotool =>
    let argv := [gotool, "tool", "covdata", "textfmt", "-i", fromDir, "-o", dst]
    let run := w.mergeRun argv
    if run.2 then (none, [Effect.runMerge fromDir dst])
    else (some (FinishErr.mergeFailed run.1), [Effect.runMerge fromDir dst])

/-- Embeds the entry loop of `copyAll` (maintest.go lines 239–250): skips
directory entries, copies each other entry by name, and stops at the first
failing copy. -/
def copyEntries (copyRes : String → Option String) (src dst : String) :
    List DirEntry → Option String × List Effect
  | [] => (none, [])
  | entry :: rest =>
    if entry.isDir then copyEntries copyRes src dst rest
    else
      match copyRes entry.name with
      | some e => (some e, [Effect.copyFile (joinPath src entry.name)
                            (joinPath dst entry.name)])
      | none =>
        let r := copyEntries copyRes src dst rest
        (r.1, Effect.copyFile (joinPath src entry.name)
                (joinPath dst entry.name) :: r.2)

/-- Embeds `copyAll` (maintest.go lines 234–252): reads the source
directory and copies its non-directory entries. -/
def copyAll (w : FinishWorld) (src dst : String) : Option String × List Effect :=
  match w.readDir with
  | .error e => (some e, [])
  | .ok entries => copyEntries w.copyRes src dst entries

/-- Embeds the coverprofile selection of `Finish` (maintest.go lines
166–169): the `-test.coverprofile` flag value, overridden by the
`WriteCoverage` path when that is non-empty. -/
def coverProfileDest (sys : Sys) (b : Exe) : String :=
  let coverprofile := findArg "test.coverprofile" sys.osArgs
  if b.overrideCovDir ≠ "" then b.overrideCovDir else coverprofile

/-- Embeds the body of `Finish` (maintest.go lines 162–195) apart from the
deferred removal: merge to the coverprofile destination when one is
configured (propagating its error), then create the raw coverage directory
and copy all files into it when one is configured (propagating wrapped
errors), and fail with the configuration error when neither is set. -/
def finishBody (sys : Sys) (w : FinishWorld) (b : Exe) :
    Option FinishErr × List Effect :=
  let coverprofile := coverProfileDest sys b
  let merge := if coverprofile ≠ "" then mergeGoCover sys w b.CoverageDir coverprofile
               else (none, [])
  match merge.1 with
  | some e => (some e, merge.2)
  | none =>
    let gocoverdir := findGoCoverDir sys
    if gocoverdir ≠ "" then
      match w.mkdirAllRes gocoverdir with
      | some e => (some (FinishErr.mkdirGoCoverDir e),
                   merge.2 ++ [Effect.mkdirAll gocoverdir])
      | none =>
        let copy := copyAll w b.CoverageDir gocoverdir
        match copy.1 with
        | some e => (some (FinishErr.copyFailed gocoverdir e),
                     merge.2 ++ Effect.mkdirAll gocoverdir :: copy.2)
        | none => (none, merge.2 ++ Effect.mkdirAll gocoverdir :: copy.2)
    else
      if coverprofile = "" then (some FinishErr.configError, merge.2)
      else (none, merge.2)

/-- Embeds `Finish` (maintest.go lines 162–195): the body, then the
deferred `os.RemoveAll(b.binDir)` performed on every return path. -/
def Exe.Finish (sys : Sys) (w : FinishWorld) (b : Exe) :
    Option FinishErr × List Effect :=
  let r := finishBody sys w b
  (r.1, r.2 ++ [Effect.removeAll b.binDir])

/-- Helper: `mergeGoCover` never produces the configuration error. -/
theorem mergeGoCover_ne_config (sys : Sys) (w : FinishWorld) (fromDir dst : String) :
    (mergeGoCover sys w fromDir dst).1 ≠ some FinishErr.configError := by
  unfold mergeGoCover
  cases goTool sys with
  | error e => simp
  | ok g =>
    dsimp only
    split <;> simp

/-- Helper: an empty merged-profile destination means both the override and
the flag value are empty. -/
theorem coverProfileDest_eq_empty_iff (sys : Sys) (b : Exe) :
    coverProfileDest sys b = "" ↔
      (b.overrideCovDir = "" ∧ findArg "test.coverprofile" sys.osArgs = "") := by
  unfold coverProfileDest
  by_cases h : b.overrideCovDir = "" <;> simp [h]

/-- Helper: an empty raw destination means both the flag value and the
environment variable are empty. -/
theorem findGoCoverDir_eq_empty_iff (sys : Sys) :
    findGoCoverDir sys = "" ↔
      (findArg "test.gocoverdir" sys.osArgs = "" ∧ sys.env "GOCOVERDIR" = "") := by
  unfold findGoCoverDir
  by_cases h : findArg "test.gocoverdir" sys.osArgs = "" <;> simp [h]

/-- Helper: the body of `Finish` returns the configuration error exactly
when neither destination is configured. -/
theorem finishBody_config_iff (sys : Sys) (w : FinishWorld) (b : Exe) :
    (finishBody sys w b).1 = some FinishErr.configError ↔
      (coverProfileDest sys b = "" ∧ findGoCoverDir sys = "") := by
  unfold finishBody
  dsimp only
  by_cases hc : coverProfileDest sys b = ""
  · rw [if_neg (not_not_intro hc)]
    dsimp only
    by_cases hg : findGoCoverDir sys = ""
    · rw [if_neg (not_not_intro hg)]
      simp [hc, hg]
    · rw [if_pos hg]
      cases hmk : w.mkdirAllRes (findGoCoverDir sys) with
      | some e => simp [hg]
      | none =>
        cases hcp : (copyAll w b.CoverageDir (findGoCoverDir sys)).1 with
        | some e => simp [hg]
        | none => simp [hg]
  · rw [if_pos hc]
    cases hm : (mergeGoCover sys w b.CoverageDir (coverProfileDest sys b)).1 with
    | some e =>
      have hne := mergeGoCover_ne_config sys w b.CoverageDir (coverProfileDest sys b)
      rw [hm] at hne
      dsimp only
      simp [hc, hne]
    | none =>
      dsimp only
      by_cases hg : findGoCoverDir sys = ""
      · rw [if_neg (not_not_intro hg)]
        rw [if_neg hc]
        simp [hc]
      · rw [if_pos hg]
        cases hmk : w.mkdirAllRes (findGoCoverDir sys) with
        | some e => simp [hc]
        | none =>
          cases hcp : (copyAll w b.CoverageDir (findGoCoverDir sys)).1 with
          | some e => simp [hc]
          | none => simp [hc]

/-- Claim C1: `Finish` returns the configuration error exactly when no
coverage-profile destination (neither the `WriteCoverage` override nor the
`-test.coverprofile` flag value) and no raw coverage directory (neither the
`-test.gocoverdir` flag value nor the `GOCOVERDIR` environment variable) is
configured; a non-empty `WriteCoverage` override takes precedence over the
flag as the profile destination. -/
theorem finish_configuration_error_iff (sys : Sys) (w : FinishWorld) (b : Exe) :
    ((Exe.Finish sys w b).1 = some FinishErr.configError ↔
      (b.overrideCovDir = "" ∧ findArg "test.coverprofile" sys.osArgs = ""
        ∧ findArg "test.gocoverdir" sys.osArgs = "" ∧ sys.env "GOCOVERDIR" = ""))
    ∧ (b.overrideCovDir ≠ "" → coverProfileDest sys b = b.overrideCovDir) := by
  constructor
  · have h1 : (Exe.Finish sys w b).1 = (finishBody sys w b).1 := rfl
    rw [h1, finishBody_config_iff, coverProfileDest_eq_empty_iff,
      findGoCoverDir_eq_empty_iff]
    tauto
  · intro h
    simp [coverProfileDest, h]

/-- Concrete instance of `finish_configuration_error_iff`: with no override,
no flags and no environment variable, `Finish` fails with the configuration
error; with an override configured it becomes the merge destination. -/
theorem finish_configuration_error_iff_witness :
    (Exe.Finish sysLinux
        { mergeRun := fun _ => ("", true), mkdirAllRes := fun _ => none,
          readDir := Except.ok [], copyRes := fun _ => none }
        winExe).1 = some FinishErr.configError
    ∧ coverProfileDest sysLinux { winExe with overrideCovDir := "/out/c.txt" }
        = "/out/c.txt" := by
  constructor
  · exact (finish_configuration_error_iff sysLinux
      { mergeRun := fun _ => ("", true), mkdirAllRes := fun _ => none,
        readDir := Except.ok [], copyRes := fun _ => none }
      winExe).1.mpr ⟨rfl, rfl, rfl, rfl⟩
  · exact (finish_configuration_error_iff sysLinux
      { mergeRun := fun _ => ("", true), mkdirAllRes := fun _ => none,
        readDir := Except.ok [], copyRes := fun _ => none }
      { winExe with overrideCovDir := "/out/c.txt" }).2 (by decide)

/-- Claim C2: `Finish` records the removal of the private temporary root on
every return path, whatever the oracle results (merge failure, copy
failure, or no destination configured). -/
theorem finish_removes_temp_root (sys : Sys) (w : FinishWorld) (b : Exe) :
    Effect.removeAll b.binDir ∈ (Exe.Finish sys w b).2 := by
  unfold Exe.Finish
  simp

/-- Helper: when every copy succeeds, the entry loop copies exactly the
non-directory entries, in order, under their own names. -/
theorem copyEntries_all_ok (copyRes : String → Option String) (src dst : String)
    (entries : List DirEntry) (h : ∀ e ∈ entries, copyRes e.name = none) :
    copyEntries copyRes src dst entries =
      (none, (entries.filter (fun e => !e.isDir)).map
        (fun e => Effect.copyFile (joinPath src e.name) (joinPath dst e.name))) := by
  induction entries with
  | nil => rfl
  | cons entry rest ih =>
    have hrest : ∀ e ∈ rest, copyRes e.name = none :=
      fun e he => h e (List.mem_cons_of_mem _ he)
    cases hd : entry.isDir with
    | true =>
      simp only [copyEntries, hd, if_true]
      rw [ih hrest]
      simp [List.filter_cons, hd]
    | false =>
      have hn : copyRes entry.name = none := h entry (List.mem_cons_self _ _)
      simp only [copyEntries, hd, Bool.false_eq_true, if_false, hn]
      rw [ih hrest]
      simp [List.filter_cons, hd]

/-- Claim C5: when both a profile destination and a raw directory are
configured and the merge succeeds (with the raw directory created and every
copy succeeding), `Finish` succeeds, runs the covdata merge into the
profile destination, and copies exactly the non-directory entries of the
private coverage directory (by name) into the raw destination, skipping
subdirectories. -/
theorem finish_populates_both (sys : Sys) (w : FinishWorld) (b : Exe)
    (g : String) (entries : List DirEntry)
    (hp : coverProfileDest sys b ≠ "")
    (hg : findGoCoverDir sys ≠ "")
    (hgo : goTool sys = Except.ok g)
    (hm : (w.mergeRun [g, "tool", "covdata", "textfmt", "-i", b.CoverageDir,
            "-o", coverProfileDest sys b]).2 = true)
    (hmk : w.mkdirAllRes (findGoCoverDir sys) = none)
    (hrd : w.readDir = Except.ok entries)
    (hcp : ∀ e ∈ entries, w.copyRes e.name = none) :
    Exe.Finish sys w b =
      (none,
        Effect.runMerge b.CoverageDir (coverProfileDest sys b)
          :: Effect.mkdirAll (findGoCoverDir sys)
          :: ((entries.filter (fun e => !e.isDir)).map
                (fun e => Effect.copyFile (joinPath b.CoverageDir e.name)
                  (joinPath (findGoCoverDir sys) e.name))
              ++ [Effect.removeAll b.binDir])) := by
  have hmerge : mergeGoCover sys w b.CoverageDir (coverProfileDest sys b)
      = (none, [Effect.runMerge b.CoverageDir (coverProfileDest sys b)]) := by
    unfold mergeGoCover
    rw [hgo]
    dsimp only
    rw [hm]
    simp
  have hcopy : copyAll w b.CoverageDir (findGoCoverDir sys)
      = (none, (entries.filter (fun e => !e.isDir)).map
          (fun e => Effect.copyFile (joinPath b.CoverageDir e.name)
            (joinPath (findGoCoverDir sys) e.name))) := by
    unfold copyAll
    rw [hrd]
    exact copyEntries_all_ok w.copyRes b.CoverageDir (findGoCoverDir sys) entries hcp
  unfold Exe.Finish finishBody
  dsimp only
  rw [if_pos hp, hmerge]
  dsimp only
  rw [if_pos hg, hmk]
  dsimp only
  rw [hcopy]
  dsimp only
  rfl

/-- An ambient state configuring the raw directory `/rawout` via the
`-test.gocoverdir` flag (fixture). -/
def sysBoth : Sys :=
  { goos := "linux", lookPath := fun _ => some "/usr/bin/go",
    osArgs := ["-test.gocoverdir=/rawout"], env := fun _ => "", environ := [] }

/-- A handle with a `WriteCoverage` override configured (fixture). -/
def bBoth : Exe :=
  { exeZero with Path := "/tmp/gotestexe/add",
                 CoverageDir := "/tmp/gotestexe/.coverage",
                 binDir := "/tmp/gotestexe",
                 overrideCovDir := "/out/coverage.txt" }

/-- A finish world whose merge succeeds and whose coverage directory holds
two files and one subdirectory (fixture). -/
def wFinishOk : FinishWorld :=
  { mergeRun := fun _ => ("", true), mkdirAllRes := fun _ => none,
    readDir := Except.ok [{ name := "covcounters.1", isDir := false },
                          { name := "subdir", isDir := true },
                          { name := "covmeta.1", isDir := false }],
    copyRes := fun _ => none }

/-- Concrete instance of `finish_populates_both`: both destinations
configured; the merge runs to the override path and exactly the two files
(not the subdirectory) are copied into `/rawout`. -/
theorem finish_populates_both_witness :
    Exe.Finish sysBoth wFinishOk bBoth =
      (none,
        [Effect.runMerge "/tmp/gotestexe/.coverage" "/out/coverage.txt",
         Effect.mkdirAll "/rawout",
         Effect.copyFile "/tmp/gotestexe/.coverage/covcounters.1" "/rawout/covcounters.1",
         Effect.copyFile "/tmp/gotestexe/.coverage/covmeta.1" "/rawout/covmeta.1",
         Effect.removeAll "/tmp/gotestexe"]) := by
  rw [finish_populates_both sysBoth wFinishOk bBoth "/usr/bin/go"
    [{ name := "covcounters.1", isDir := false },
     { name := "subdir", isDir := true },
     { name := "covmeta.1", isDir := false }]
    (by decide) (by decide) rfl rfl rfl rfl (fun e he => rfl)]
  rfl

end Maintest
